import Mathlib

/-!
Verification of the flag consistency analysis engine.

The development embeds the two Python sources:
* `analyze_inconsistencies.py` (`check_inconsistencies`): the four-rule
  classifier over a store of flag records, together with the composite
  default resolver used on closure members;
* `parse_diagnostics.py` (`get_all_implies`): the recursive transitive
  closure computation with a shared visited set, rendered here with an
  explicit fuel parameter (the fuel bound is proved sufficient below).

A store is an association list from flag names to records, mirroring the
insertion-ordered Python dict; lookups return the first matching entry.
Absent optional JSON fields default to `false` / `[]`, matching the
`.get(key, default)` accesses in the source.
-/

/-- One flag record, as read from the diagnostics JSON.  Fields mirror the
keys accessed by `check_inconsistencies`; absent fields default like the
Python `.get` calls. -/
structure FlagRecord where
  implies : List String := []
  implies_transitive : List String := []
  is_error : Bool := false
  is_default : Bool := false
  some_default : Bool := false
  has_no_effect : Bool := false
deriving DecidableEq

/-- The flag store: insertion-ordered mapping from flag name to record. -/
abbrev Store := List (String × FlagRecord)

/-- Dictionary lookup `flags[name]`: first entry with the given key. -/
def findFlag : Store → String → Option FlagRecord
  | [], _ => none
  | (k, e) :: rest, n => if k = n then some e else findFlag rest n

/-- First pass of `check_inconsistencies`: the set of Type 0 flags, i.e.
flags with `some_default` and an empty `implies` list. -/
def type0_flags (store : Store) : List String :=
  (store.filter (fun p => p.2.some_default && p.2.implies.isEmpty)).map Prod.fst

/-- Membership test `subflag_name in type0_flags`. -/
def is_type0 (store : Store) (n : String) : Bool :=
  decide (n ∈ type0_flags store)

/-- Composite default resolver applied to a closure member: `none` when the
name is missing from the store, otherwise the disjunction of `is_default`,
`is_error`, `has_no_effect` and Type-0 membership computed at lines
106-111 of the analyzer. -/
def effective_default (store : Store) (n : String) : Option Bool :=
  (findFlag store n).map
    (fun d => d.is_default || d.is_error || d.has_no_effect || is_type0 store n)

/-- One row of `transitive_subflag_defaults`.  For a present sub-flag the
`is_default` field stores the composite resolved status (the source reuses
the key for the composite value); a missing sub-flag stores `none` there
and `missing := true`. -/
structure TransStatus where
  name : String
  is_default : Option Bool
  is_error : Bool
  has_no_effect : Bool
  is_type0 : Bool
  missing : Bool
deriving DecidableEq

/-- One row of `direct_subflag_defaults`; like `TransStatus` but also
recording the child's raw `some_default` (`none` when missing). -/
structure DirectStatus where
  name : String
  is_default : Option Bool
  is_error : Bool
  has_no_effect : Bool
  is_type0 : Bool
  some_default : Option Bool
  missing : Bool
deriving DecidableEq

/-- The evidence row for a missing transitive sub-flag (lines 119-128). -/
def missing_trans_status (n : String) : TransStatus :=
  ⟨n, none, false, false, false, true⟩

/-- Evidence row built for one name of `implies_transitive`. -/
def trans_status (store : Store) (n : String) : TransStatus :=
  match findFlag store n with
  | some d =>
      ⟨n, some (d.is_default || d.is_error || d.has_no_effect || is_type0 store n),
        d.is_error, d.has_no_effect, is_type0 store n, false⟩
  | none => missing_trans_status n

/-- The evidence row for a missing direct sub-flag (lines 148-157). -/
def missing_direct_status (n : String) : DirectStatus :=
  ⟨n, none, false, false, false, none, true⟩

/-- Evidence row built for one name of `implies`. -/
def direct_status (store : Store) (n : String) : DirectStatus :=
  match findFlag store n with
  | some d =>
      ⟨n, some (d.is_default || d.is_error || d.has_no_effect || is_type0 store n),
        d.is_error, d.has_no_effect, is_type0 store n, some d.some_default, false⟩
  | none => missing_direct_status n

/-- The list `transitive_subflag_defaults`: one row per entry of
`implies_transitive`, in order. -/
def transitive_statuses (store : Store) (d : FlagRecord) : List TransStatus :=
  d.implies_transitive.map (trans_status store)

/-- The list `direct_subflag_defaults`: one row per entry of `implies`, in order. -/
def direct_statuses (store : Store) (d : FlagRecord) : List DirectStatus :=
  d.implies.map (direct_status store)

/-- The check `all(not sf[is_default] for sf in rows if present)` of line 160. -/
def all_transitive_non_default (store : Store) (d : FlagRecord) : Bool :=
  ((transitive_statuses store d).filter (fun sf => sf.is_default.isSome)).all
    (fun sf => !sf.is_default.getD false)

/-- The check `all(sf[is_default] for sf in rows if present)` of line 161. -/
def all_transitive_default (store : Store) (d : FlagRecord) : Bool :=
  ((transitive_statuses store d).filter (fun sf => sf.is_default.isSome)).all
    (fun sf => sf.is_default.getD false)

/-- The variable `parent_is_default` of line 164: raw `is_default` or `is_error`. -/
def parent_is_default (d : FlagRecord) : Bool :=
  d.is_default || d.is_error

/-- The `truly_enabled` filter of the Type 2 rule: composite-enabled rows
whose flag is neither `has_no_effect` nor Type 0. -/
def truly_enabled (store : Store) (d : FlagRecord) : List TransStatus :=
  (transitive_statuses store d).filter
    (fun sf => sf.is_default.getD false && !sf.has_no_effect && !sf.is_type0)

/-- Rows whose composite status is truthy (used for counts / display). -/
def enabled_by_default (store : Store) (d : FlagRecord) : List TransStatus :=
  (transitive_statuses store d).filter (fun sf => sf.is_default.getD false)

/-- Rows recorded as not enabled by the Type 3 rule: present and with a
false composite status. -/
def not_enabled_by_default (store : Store) (d : FlagRecord) : List TransStatus :=
  (transitive_statuses store d).filter
    (fun sf => !(sf.is_default.getD false) && sf.is_default.isSome)

/-- Guard of the Type 1 rule (line 168). -/
def type1_cond (store : Store) (d : FlagRecord) : Bool :=
  d.some_default && all_transitive_non_default store d

/-- Guard of the Type 2 rule (lines 186-191). -/
def type2_cond (store : Store) (d : FlagRecord) : Bool :=
  !d.some_default && !parent_is_default d && !(truly_enabled store d).isEmpty

/-- Guard of the Type 3 rule (line 209). -/
def type3_cond (store : Store) (d : FlagRecord) : Bool :=
  parent_is_default d && !(all_transitive_default store d)

/-- A Type 0 finding record. -/
structure Type0Issue where
  flag : String
  parent_some_default : Bool
  parent_is_default : Bool
  has_implies : Bool
  has_implies_transitive : Bool
deriving DecidableEq

/-- A Type 1 finding record. -/
structure Type1Issue where
  flag : String
  parent_some_default : Bool
  parent_is_default : Bool
  parent_is_error : Bool
  direct_subflags : List DirectStatus
  transitive_count : Nat
  enabled_by_default_count : Nat
deriving DecidableEq

/-- A Type 2 finding record. -/
structure Type2Issue where
  flag : String
  parent_some_default : Bool
  parent_is_default : Bool
  parent_is_error : Bool
  direct_subflags : List DirectStatus
  transitive_count : Nat
  enabled_by_default : List TransStatus
  enabled_by_default_count : Nat
  truly_enabled_count : Nat
deriving DecidableEq

/-- A Type 3 finding record. -/
structure Type3Issue where
  flag : String
  parent_some_default : Bool
  parent_is_default : Bool
  parent_is_error : Bool
  direct_subflags : List DirectStatus
  transitive_count : Nat
  not_enabled_by_default : List TransStatus
  not_enabled_by_default_count : Nat
deriving DecidableEq

/-- The four finding collections returned by `check_inconsistencies`. -/
structure Findings where
  type0_issues : List Type0Issue
  type1_issues : List Type1Issue
  type2_issues : List Type2Issue
  type3_issues : List Type3Issue
deriving DecidableEq

/-- Type 0 finding built at lines 85-93. -/
def mk_type0_issue (n : String) (d : FlagRecord) : Type0Issue :=
  ⟨n, d.some_default, d.is_default, false, !d.implies_transitive.isEmpty⟩

/-- Type 1 finding built at lines 168-180. -/
def mk_type1_issue (store : Store) (n : String) (d : FlagRecord) : Type1Issue :=
  ⟨n, d.some_default, parent_is_default d, d.is_error, direct_statuses store d,
    d.implies_transitive.length, (enabled_by_default store d).length⟩

/-- Type 2 finding built at lines 186-205. -/
def mk_type2_issue (store : Store) (n : String) (d : FlagRecord) : Type2Issue :=
  ⟨n, d.some_default, parent_is_default d, d.is_error, direct_statuses store d,
    d.implies_transitive.length, enabled_by_default store d,
    (enabled_by_default store d).length, (truly_enabled store d).length⟩

/-- Type 3 finding built at lines 209-222. -/
def mk_type3_issue (store : Store) (n : String) (d : FlagRecord) : Type3Issue :=
  ⟨n, d.some_default, parent_is_default d, d.is_error, direct_statuses store d,
    d.implies_transitive.length, not_enabled_by_default store d,
    (not_enabled_by_default store d).length⟩

/-- The body of the second pass for one store entry: a Type 0 flag records
its Type 0 finding and nothing else; a flag with no children is skipped;
otherwise the three rule guards each contribute at most one finding. -/
def eval_flag (store : Store) (n : String) (d : FlagRecord) : Findings :=
  if is_type0 store n then
    ⟨[mk_type0_issue n d], [], [], []⟩
  else if d.implies.isEmpty then
    ⟨[], [], [], []⟩
  else
    ⟨[],
      if type1_cond store d then [mk_type1_issue store n d] else [],
      if type2_cond store d then [mk_type2_issue store n d] else [],
      if type3_cond store d then [mk_type3_issue store n d] else []⟩

/-- The second pass of `check_inconsistencies`, iterating the store in
order and appending each entry's findings to the four lists. -/
def check_loop (store : Store) : List (String × FlagRecord) → Findings
  | [] => ⟨[], [], [], []⟩
  | (n, d) :: rest =>
    let c := eval_flag store n d
    let r := check_loop store rest
    ⟨c.type0_issues ++ r.type0_issues, c.type1_issues ++ r.type1_issues,
      c.type2_issues ++ r.type2_issues, c.type3_issues ++ r.type3_issues⟩

/-- The function `check_inconsistencies(data)`: the whole analysis of a store. -/
def check_inconsistencies (store : Store) : Findings :=
  check_loop store store

/-- The engine emits a Type 0 finding naming `g`. -/
def emits_type0 (store : Store) (g : String) : Prop :=
  ∃ iss ∈ (check_inconsistencies store).type0_issues, iss.flag = g

/-- The engine emits a Type 1 finding naming `g`. -/
def emits_type1 (store : Store) (g : String) : Prop :=
  ∃ iss ∈ (check_inconsistencies store).type1_issues, iss.flag = g

/-- The engine emits a Type 2 finding naming `g`. -/
def emits_type2 (store : Store) (g : String) : Prop :=
  ∃ iss ∈ (check_inconsistencies store).type2_issues, iss.flag = g

/-- The engine emits a Type 3 finding naming `g`. -/
def emits_type3 (store : Store) (g : String) : Prop :=
  ∃ iss ∈ (check_inconsistencies store).type3_issues, iss.flag = g

/-- Pointwise update of the record stored under one name. -/
def update_store (store : Store) (f : String) (nd : FlagRecord) : Store :=
  store.map (fun p => if p.1 = f then (p.1, nd) else p)

/-! Closure computation from `parse_diagnostics.py`.  The Python function
threads one mutable `visited` set through the whole traversal and returns
a result set per call; the embedding passes the visited list explicitly
and returns the pair (result, visited).  Recursion is driven by a fuel
parameter; `get_all_implies_fuel_stable` below shows any fuel of at least
`store.length + 1` computes the same answer, i.e. the recursion is in fact
bounded and the Python function terminates. -/

/-- Sequential traversal of the `implies` children of one expanded flag:
each child is added to the result, then expanded with `g`, threading the
visited list left to right. -/
def implies_fold (g : String → List String → List String × List String) :
    List String → List String → List String × List String
  | [], visited => ([], visited)
  | implied :: rest, visited =>
    let p := g implied visited
    let q := implies_fold g rest p.2
    (implied :: (p.1 ++ q.1), q.2)

/-- Fuelled rendering of `get_all_implies(flags, flag_name, visited)`. -/
def get_all_implies_aux (store : Store) :
    Nat → String → List String → List String × List String
  | 0, _, visited => ([], visited)
  | fuel + 1, flag_name, visited =>
    if flag_name ∈ visited then ([], visited)
    else
      match findFlag store flag_name with
      | none => ([], flag_name :: visited)
      | some d =>
        implies_fold (fun s v => get_all_implies_aux store fuel s v)
          d.implies (flag_name :: visited)

/-- Top-level `get_all_implies(flags, flag_name)`: fresh visited set, fuel
large enough never to run out. -/
def get_all_implies (store : Store) (flag_name : String) : List String :=
  (get_all_implies_aux store (store.length + 1) flag_name []).1

/-- Reachability along `implies` edges in one or more hops. -/
inductive Reaches (store : Store) : String → String → Prop
  | direct {a b : String} {d : FlagRecord} :
      findFlag store a = some d → b ∈ d.implies → Reaches store a b
  | step {a b c : String} {d : FlagRecord} :
      findFlag store a = some d → b ∈ d.implies → Reaches store b c →
      Reaches store a c

/-- Store keys not yet visited; the decreasing measure of the traversal. -/
def unvisited_count (store : Store) (visited : List String) : Nat :=
  ((store.map Prod.fst).filter (fun n => decide (n ∉ visited))).length

/-! Concrete stores used to instantiate the general theorems. -/

/-- A flag that implies itself: the smallest implies cycle. -/
def cyc_a : FlagRecord := { implies := ["a"] }

/-- One-flag store whose only flag lies on a self-loop. -/
def cyc_store : Store := [("a", cyc_a)]

/-- Parent claiming `some_default` with one enabled child in its closure. -/
def w1_f : FlagRecord :=
  { implies := ["c"], implies_transitive := ["c"], some_default := true }

/-- Store for the Type 1 instance: the child `c` is enabled by default. -/
def w1_store : Store := [("f", w1_f), ("c", { is_default := true })]

/-- Parent with all claim bits false and one child in its closure. -/
def w2_f : FlagRecord := { implies := ["c"], implies_transitive := ["c"] }

/-- Store with a genuinely enabled child: a Type 2 instance. -/
def w2_store : Store := [("f", w2_f), ("c", { is_default := true })]

/-- Child that is enabled by default but also inert. -/
def cex2_c : FlagRecord := { is_default := true, has_no_effect := true }

/-- Store whose only closure member is enabled-but-inert. -/
def cex2_store : Store := [("f", w2_f), ("c", cex2_c)]

/-- Error-by-default parent with a single inert child. -/
def w3_f : FlagRecord :=
  { implies := ["c"], implies_transitive := ["c"], is_error := true }

/-- Store for the Type 3 symmetry instance. -/
def w3_store : Store := [("f", w3_f), ("c", { has_no_effect := true })]

/-- Childless flag claiming `some_default`: a Type 0 flag. -/
def w4_f : FlagRecord := { some_default := true }

/-- One-flag store whose flag is Type 0. -/
def w4_store : Store := [("f", w4_f)]

/-- An inert flag, for the resolver instance. -/
def w5_f : FlagRecord := { has_no_effect := true }

/-- One-flag store for the resolver instance. -/
def w5_store : Store := [("f", w5_f)]

/-- Flag with a child edge but an empty declared closure. -/
def cex7_f : FlagRecord := { implies := ["b"] }

/-- Store whose declared closure diverges from the recomputed one. -/
def cex7_store : Store := [("f", cex7_f), ("b", {})]

/-- Parent whose declared closure names one present and one missing flag. -/
def w9_f : FlagRecord :=
  { implies := ["c", "m"], implies_transitive := ["c", "m"],
    some_default := true }

/-- Store with a missing reference `m`. -/
def w9_store : Store := [("f", w9_f), ("c", { is_default := true })]

/-! Basic lookup lemmas. -/

theorem findFlag_mem {store : Store} {f : String} {d : FlagRecord}
    (h : findFlag store f = some d) : (f, d) ∈ store := by
  induction store with
  | nil => simp [findFlag] at h
  | cons p rest ih =>
    obtain ⟨k, e⟩ := p
    by_cases hk : k = f
    · subst hk
      rw [findFlag, if_pos rfl] at h
      exact List.mem_cons.mpr (Or.inl (by rw [Option.some.injEq] at h; rw [h]))
    · rw [findFlag, if_neg hk] at h
      exact List.mem_cons.mpr (Or.inr (ih h))

theorem findFlag_key_mem {store : Store} {f : String} {d : FlagRecord}
    (h : findFlag store f = some d) : f ∈ store.map Prod.fst := by
  exact List.mem_map.mpr ⟨(f, d), findFlag_mem h, rfl⟩

theorem findFlag_eq_some_of_mem {store : Store} {f : String} {d : FlagRecord}
    (hnd : (store.map Prod.fst).Nodup) (hmem : (f, d) ∈ store) :
    findFlag store f = some d := by
  induction store with
  | nil => simp at hmem
  | cons p rest ih =>
    obtain ⟨k, e⟩ := p
    rw [List.map_cons, List.nodup_cons] at hnd
    rcases List.mem_cons.mp hmem with heq | hmem2
    · rw [Prod.mk.injEq] at heq
      rw [findFlag, if_pos heq.1.symm, heq.2]
    · have hk : k ≠ f := by
        intro hkf
        exact hnd.1 (by rw [hkf]; exact List.mem_map.mpr ⟨(f, d), hmem2, rfl⟩)
      rw [findFlag, if_neg hk]
      exact ih hnd.2 hmem2

theorem findFlag_eq_none_iff {store : Store} {f : String} :
    findFlag store f = none ↔ f ∉ store.map Prod.fst := by
  induction store with
  | nil => simp [findFlag]
  | cons p rest ih =>
    obtain ⟨k, e⟩ := p
    by_cases hk : k = f
    · subst hk
      simp [findFlag]
    · rw [findFlag, if_neg hk, List.map_cons]
      rw [ih]
      constructor
      · intro h hmem
        rcases List.mem_cons.mp hmem with h2 | h2
        · exact hk h2.symm
        · exact h h2
      · intro h hmem
        exact h (List.mem_cons.mpr (Or.inr hmem))

theorem mem_unique_of_nodup {store : Store} {f : String} {d d2 : FlagRecord}
    (hnd : (store.map Prod.fst).Nodup) (h1 : (f, d) ∈ store)
    (h2 : (f, d2) ∈ store) : d = d2 := by
  have e1 := findFlag_eq_some_of_mem hnd h1
  have e2 := findFlag_eq_some_of_mem hnd h2
  rw [e1, Option.some.injEq] at e2
  exact e2

theorem mem_type0_flags_iff {store : Store} {f : String} :
    f ∈ type0_flags store ↔
      ∃ d, (f, d) ∈ store ∧ d.some_default = true ∧ d.implies = [] := by
  unfold type0_flags
  rw [List.mem_map]
  constructor
  · rintro ⟨⟨k, e⟩, hmem, hk⟩
    rw [List.mem_filter] at hmem
    simp only at hk
    subst hk
    refine ⟨e, hmem.1, ?_, ?_⟩
    · exact (Bool.and_eq_true ..).mp hmem.2 |>.1
    · exact List.isEmpty_iff.mp ((Bool.and_eq_true ..).mp hmem.2).2
  · rintro ⟨d, hmem, hsd, himp⟩
    refine ⟨(f, d), List.mem_filter.mpr ⟨hmem, ?_⟩, rfl⟩
    rw [Bool.and_eq_true]
    exact ⟨hsd, by rw [himp]; rfl⟩

theorem is_type0_true_iff {store : Store} {f : String} :
    is_type0 store f = true ↔
      ∃ d, (f, d) ∈ store ∧ d.some_default = true ∧ d.implies = [] := by
  rw [is_type0, decide_eq_true_iff]
  exact mem_type0_flags_iff

theorem is_type0_false_of_implies_ne {store : Store} {f : String}
    {d : FlagRecord} (hnd : (store.map Prod.fst).Nodup) (hmem : (f, d) ∈ store)
    (himp : d.implies ≠ []) : is_type0 store f = false := by
  rw [Bool.eq_false_iff]
  intro h
  obtain ⟨d2, hmem2, -, himp2⟩ := is_type0_true_iff.mp h
  exact himp (by rw [mem_unique_of_nodup hnd hmem hmem2]; exact himp2)

/-! Resolver lemmas. -/

theorem trans_status_is_default (store : Store) (n : String) :
    (trans_status store n).is_default = effective_default store n := by
  unfold trans_status effective_default
  cases findFlag store n with
  | none => rfl
  | some d => rfl

theorem trans_status_missing (store : Store) (n : String)
    (h : findFlag store n = none) :
    trans_status store n = missing_trans_status n := by
  unfold trans_status
  rw [h]

theorem direct_status_missing (store : Store) (n : String)
    (h : findFlag store n = none) :
    direct_status store n = missing_direct_status n := by
  unfold direct_status
  rw [h]

theorem effective_default_some_iff {store : Store} {n : String} {b : Bool} :
    effective_default store n = some b ↔
      ∃ d, findFlag store n = some d ∧
        (d.is_default || d.is_error || d.has_no_effect || is_type0 store n) = b := by
  unfold effective_default
  cases findFlag store n with
  | none => simp
  | some d => simp

/-! Rule-guard characterizations. -/

theorem all_non_iff (store : Store) (d : FlagRecord) :
    all_transitive_non_default store d = true ↔
      ∀ s ∈ d.implies_transitive, effective_default store s ≠ some true := by
  unfold all_transitive_non_default transitive_statuses
  rw [List.all_eq_true]
  constructor
  · intro h s hs hed
    have h2 := h (trans_status store s)
      (List.mem_filter.mpr ⟨List.mem_map_of_mem _ hs,
        by rw [trans_status_is_default, hed]; rfl⟩)
    rw [trans_status_is_default, hed] at h2
    simp at h2
  · intro h sf hsf
    rw [List.mem_filter] at hsf
    obtain ⟨hm, hsome⟩ := hsf
    obtain ⟨s, hs, rfl⟩ := List.mem_map.mp hm
    rw [trans_status_is_default] at hsome ⊢
    rcases hed : effective_default store s with - | b
    · rw [hed] at hsome; simp at hsome
    · cases b
      · rfl
      · exact absurd hed (h s hs)

theorem all_def_iff (store : Store) (d : FlagRecord) :
    all_transitive_default store d = true ↔
      ∀ s ∈ d.implies_transitive, effective_default store s ≠ some false := by
  unfold all_transitive_default transitive_statuses
  rw [List.all_eq_true]
  constructor
  · intro h s hs hed
    have h2 := h (trans_status store s)
      (List.mem_filter.mpr ⟨List.mem_map_of_mem _ hs,
        by rw [trans_status_is_default, hed]; rfl⟩)
    rw [trans_status_is_default, hed] at h2
    simp at h2
  · intro h sf hsf
    rw [List.mem_filter] at hsf
    obtain ⟨hm, hsome⟩ := hsf
    obtain ⟨s, hs, rfl⟩ := List.mem_map.mp hm
    rw [trans_status_is_default] at hsome ⊢
    rcases hed : effective_default store s with - | b
    · rw [hed] at hsome; simp at hsome
    · cases b
      · exact absurd hed (h s hs)
      · rfl

theorem isEmpty_false_iff_exists {α : Type} (l : List α) :
    l.isEmpty = false ↔ ∃ x, x ∈ l := by
  cases l <;> simp

theorem truly_enabled_ne_iff (store : Store) (d : FlagRecord) :
    (truly_enabled store d).isEmpty = false ↔
      ∃ s ∈ d.implies_transitive, ∃ e, findFlag store s = some e ∧
        effective_default store s = some true ∧ e.has_no_effect = false ∧
        is_type0 store s = false := by
  unfold truly_enabled transitive_statuses
  rw [isEmpty_false_iff_exists]
  constructor
  · rintro ⟨sf, hsf⟩
    rw [List.mem_filter] at hsf
    obtain ⟨hm, hpred⟩ := hsf
    obtain ⟨s, hs, rfl⟩ := List.mem_map.mp hm
    rcases he : findFlag store s with - | e
    · rw [trans_status_missing store s he] at hpred
      simp [missing_trans_status] at hpred
    · unfold trans_status at hpred
      rw [he] at hpred
      simp only [Option.getD_some, Bool.and_eq_true, Bool.not_eq_true'] at hpred
      refine ⟨s, hs, e, he, ?_, hpred.1.2, hpred.2⟩
      unfold effective_default
      rw [he]
      simpa using hpred.1.1
  · rintro ⟨s, hs, e, he, hed, hhne, ht0⟩
    refine ⟨trans_status store s, List.mem_filter.mpr ⟨List.mem_map_of_mem _ hs, ?_⟩⟩
    unfold trans_status
    rw [he]
    simp only [Option.getD_some, Bool.and_eq_true, Bool.not_eq_true']
    unfold effective_default at hed
    rw [he] at hed
    simp only [Option.map_some', Option.some.injEq] at hed
    exact ⟨⟨hed, hhne⟩, ht0⟩

theorem not_all_def_iff (store : Store) (d : FlagRecord) :
    all_transitive_default store d = false ↔
      ∃ s ∈ d.implies_transitive, effective_default store s = some false := by
  rw [Bool.eq_false_iff, Ne, all_def_iff]
  push_neg
  rfl

theorem type1_cond_iff (store : Store) (d : FlagRecord) :
    type1_cond store d = true ↔
      d.some_default = true ∧
        ∀ s ∈ d.implies_transitive, effective_default store s ≠ some true := by
  unfold type1_cond
  rw [Bool.and_eq_true, all_non_iff]

theorem type2_cond_iff (store : Store) (d : FlagRecord) :
    type2_cond store d = true ↔
      d.some_default = false ∧ d.is_default = false ∧ d.is_error = false ∧
        ∃ s ∈ d.implies_transitive, ∃ e, findFlag store s = some e ∧
          effective_default store s = some true ∧ e.has_no_effect = false ∧
          is_type0 store s = false := by
  unfold type2_cond parent_is_default
  simp only [Bool.and_eq_true, Bool.not_eq_true', Bool.or_eq_false_iff]
  rw [truly_enabled_ne_iff]
  tauto

theorem type3_cond_iff (store : Store) (d : FlagRecord) :
    type3_cond store d = true ↔
      (d.is_default = true ∨ d.is_error = true) ∧
        ∃ s ∈ d.implies_transitive, effective_default store s = some false := by
  unfold type3_cond parent_is_default
  simp only [Bool.and_eq_true, Bool.not_eq_true', Bool.or_eq_true]
  rw [not_all_def_iff]

/-! Membership characterizations of the four finding lists. -/

theorem mem_eval_type0 (store : Store) (n : String) (d : FlagRecord)
    (g : String) :
    (∃ iss ∈ (eval_flag store n d).type0_issues, iss.flag = g) ↔
      (g = n ∧ is_type0 store n = true) := by
  unfold eval_flag
  by_cases h0 : is_type0 store n = true
  · simp [h0, mk_type0_issue]
    exact eq_comm
  · have h0f : is_type0 store n = false := Bool.eq_false_iff.mpr h0
    by_cases hi : d.implies.isEmpty = true
    · simp [h0, h0f, hi]
    · simp [h0, h0f, hi]

theorem mem_eval_type1 (store : Store) (n : String) (d : FlagRecord)
    (g : String) :
    (∃ iss ∈ (eval_flag store n d).type1_issues, iss.flag = g) ↔
      (g = n ∧ is_type0 store n = false ∧ d.implies ≠ [] ∧
        type1_cond store d = true) := by
  unfold eval_flag
  by_cases h0 : is_type0 store n = true
  · simp [h0]
  · have h0f : is_type0 store n = false := Bool.eq_false_iff.mpr h0
    by_cases hi : d.implies.isEmpty = true
    · simp [h0, hi, List.isEmpty_iff.mp hi]
    · have hne : d.implies ≠ [] := fun h => hi (by rw [h]; rfl)
      by_cases h1 : type1_cond store d = true
      · simp [h0, hi, h1, h0f, hne, mk_type1_issue]
        exact eq_comm
      · simp [h0, hi, h1]

theorem mem_eval_type2 (store : Store) (n : String) (d : FlagRecord)
    (g : String) :
    (∃ iss ∈ (eval_flag store n d).type2_issues, iss.flag = g) ↔
      (g = n ∧ is_type0 store n = false ∧ d.implies ≠ [] ∧
        type2_cond store d = true) := by
  unfold eval_flag
  by_cases h0 : is_type0 store n = true
  · simp [h0]
  · have h0f : is_type0 store n = false := Bool.eq_false_iff.mpr h0
    by_cases hi : d.implies.isEmpty = true
    · simp [h0, hi, List.isEmpty_iff.mp hi]
    · have hne : d.implies ≠ [] := fun h => hi (by rw [h]; rfl)
      by_cases h2 : type2_cond store d = true
      · simp [h0, hi, h2, h0f, hne, mk_type2_issue]
        exact eq_comm
      · simp [h0, hi, h2]

theorem mem_eval_type3 (store : Store) (n : String) (d : FlagRecord)
    (g : String) :
    (∃ iss ∈ (eval_flag store n d).type3_issues, iss.flag = g) ↔
      (g = n ∧ is_type0 store n = false ∧ d.implies ≠ [] ∧
        type3_cond store d = true) := by
  unfold eval_flag
  by_cases h0 : is_type0 store n = true
  · simp [h0]
  · have h0f : is_type0 store n = false := Bool.eq_false_iff.mpr h0
    by_cases hi : d.implies.isEmpty = true
    · simp [h0, hi, List.isEmpty_iff.mp hi]
    · have hne : d.implies ≠ [] := fun h => hi (by rw [h]; rfl)
      by_cases h3 : type3_cond store d = true
      · simp [h0, hi, h3, h0f, hne, mk_type3_issue]
        exact eq_comm
      · simp [h0, hi, h3]

theorem check_loop_cons (store : Store) (n : String) (d : FlagRecord)
    (rest : List (String × FlagRecord)) :
    check_loop store ((n, d) :: rest) =
      ⟨(eval_flag store n d).type0_issues ++ (check_loop store rest).type0_issues,
        (eval_flag store n d).type1_issues ++ (check_loop store rest).type1_issues,
        (eval_flag store n d).type2_issues ++ (check_loop store rest).type2_issues,
        (eval_flag store n d).type3_issues ++ (check_loop store rest).type3_issues⟩ := by
  rfl

theorem mem_check_loop_type0 (store : Store)
    (l : List (String × FlagRecord)) (g : String) :
    (∃ iss ∈ (check_loop store l).type0_issues, iss.flag = g) ↔
      ∃ d, (g, d) ∈ l ∧ is_type0 store g = true := by
  induction l with
  | nil => simp [check_loop]
  | cons p rest ih =>
    obtain ⟨n, d⟩ := p
    rw [check_loop_cons]
    constructor
    · rintro ⟨iss, hiss, hflag⟩
      rcases List.mem_append.mp hiss with h | h
      · obtain ⟨hg, h0⟩ := (mem_eval_type0 store n d g).mp ⟨iss, h, hflag⟩
        subst hg
        exact ⟨d, List.mem_cons_self _ _, h0⟩
      · obtain ⟨e, he, h0⟩ := ih.mp ⟨iss, h, hflag⟩
        exact ⟨e, List.mem_cons_of_mem _ he, h0⟩
    · rintro ⟨e, he, h0⟩
      rcases List.mem_cons.mp he with heq | hmem
      · rw [Prod.mk.injEq] at heq
        obtain ⟨iss, hiss, hflag⟩ := (mem_eval_type0 store n d g).mpr
          ⟨heq.1, heq.1 ▸ h0⟩
        exact ⟨iss, List.mem_append.mpr (Or.inl hiss), hflag⟩
      · obtain ⟨iss, hiss, hflag⟩ := ih.mpr ⟨e, hmem, h0⟩
        exact ⟨iss, List.mem_append.mpr (Or.inr hiss), hflag⟩

theorem mem_check_loop_type1 (store : Store)
    (l : List (String × FlagRecord)) (g : String) :
    (∃ iss ∈ (check_loop store l).type1_issues, iss.flag = g) ↔
      ∃ d, (g, d) ∈ l ∧ is_type0 store g = false ∧ d.implies ≠ [] ∧
        type1_cond store d = true := by
  induction l with
  | nil => simp [check_loop]
  | cons p rest ih =>
    obtain ⟨n, d⟩ := p
    rw [check_loop_cons]
    constructor
    · rintro ⟨iss, hiss, hflag⟩
      rcases List.mem_append.mp hiss with h | h
      · obtain ⟨hg, h0, hne, hc⟩ := (mem_eval_type1 store n d g).mp ⟨iss, h, hflag⟩
        subst hg
        exact ⟨d, List.mem_cons_self _ _, h0, hne, hc⟩
      · obtain ⟨e, he, hrest⟩ := ih.mp ⟨iss, h, hflag⟩
        exact ⟨e, List.mem_cons_of_mem _ he, hrest⟩
    · rintro ⟨e, he, h0, hne, hc⟩
      rcases List.mem_cons.mp he with heq | hmem
      · rw [Prod.mk.injEq] at heq
        obtain ⟨iss, hiss, hflag⟩ := (mem_eval_type1 store n d g).mpr
          ⟨heq.1, heq.1 ▸ h0, heq.2 ▸ hne, heq.2 ▸ hc⟩
        exact ⟨iss, List.mem_append.mpr (Or.inl hiss), hflag⟩
      · obtain ⟨iss, hiss, hflag⟩ := ih.mpr ⟨e, hmem, h0, hne, hc⟩
        exact ⟨iss, List.mem_append.mpr (Or.inr hiss), hflag⟩

theorem mem_check_loop_type2 (store : Store)
    (l : List (String × FlagRecord)) (g : String) :
    (∃ iss ∈ (check_loop store l).type2_issues, iss.flag = g) ↔
      ∃ d, (g, d) ∈ l ∧ is_type0 store g = false ∧ d.implies ≠ [] ∧
        type2_cond store d = true := by
  induction l with
  | nil => simp [check_loop]
  | cons p rest ih =>
    obtain ⟨n, d⟩ := p
    rw [check_loop_cons]
    constructor
    · rintro ⟨iss, hiss, hflag⟩
      rcases List.mem_append.mp hiss with h | h
      · obtain ⟨hg, h0, hne, hc⟩ := (mem_eval_type2 store n d g).mp ⟨iss, h, hflag⟩
        subst hg
        exact ⟨d, List.mem_cons_self _ _, h0, hne, hc⟩
      · obtain ⟨e, he, hrest⟩ := ih.mp ⟨iss, h, hflag⟩
        exact ⟨e, List.mem_cons_of_mem _ he, hrest⟩
    · rintro ⟨e, he, h0, hne, hc⟩
      rcases List.mem_cons.mp he with heq | hmem
      · rw [Prod.mk.injEq] at heq
        obtain ⟨iss, hiss, hflag⟩ := (mem_eval_type2 store n d g).mpr
          ⟨heq.1, heq.1 ▸ h0, heq.2 ▸ hne, heq.2 ▸ hc⟩
        exact ⟨iss, List.mem_append.mpr (Or.inl hiss), hflag⟩
      · obtain ⟨iss, hiss, hflag⟩ := ih.mpr ⟨e, hmem, h0, hne, hc⟩
        exact ⟨iss, List.mem_append.mpr (Or.inr hiss), hflag⟩

theorem mem_check_loop_type3 (store : Store)
    (l : List (String × FlagRecord)) (g : String) :
    (∃ iss ∈ (check_loop store l).type3_issues, iss.flag = g) ↔
      ∃ d, (g, d) ∈ l ∧ is_type0 store g = false ∧ d.implies ≠ [] ∧
        type3_cond store d = true := by
  induction l with
  | nil => simp [check_loop]
  | cons p rest ih =>
    obtain ⟨n, d⟩ := p
    rw [check_loop_cons]
    constructor
    · rintro ⟨iss, hiss, hflag⟩
      rcases List.mem_append.mp hiss with h | h
      · obtain ⟨hg, h0, hne, hc⟩ := (mem_eval_type3 store n d g).mp ⟨iss, h, hflag⟩
        subst hg
        exact ⟨d, List.mem_cons_self _ _, h0, hne, hc⟩
      · obtain ⟨e, he, hrest⟩ := ih.mp ⟨iss, h, hflag⟩
        exact ⟨e, List.mem_cons_of_mem _ he, hrest⟩
    · rintro ⟨e, he, h0, hne, hc⟩
      rcases List.mem_cons.mp he with heq | hmem
      · rw [Prod.mk.injEq] at heq
        obtain ⟨iss, hiss, hflag⟩ := (mem_eval_type3 store n d g).mpr
          ⟨heq.1, heq.1 ▸ h0, heq.2 ▸ hne, heq.2 ▸ hc⟩
        exact ⟨iss, List.mem_append.mpr (Or.inl hiss), hflag⟩
      · obtain ⟨iss, hiss, hflag⟩ := ih.mpr ⟨e, hmem, h0, hne, hc⟩
        exact ⟨iss, List.mem_append.mpr (Or.inr hiss), hflag⟩

/-! Congruence lemmas for record updates: rule evaluation reads only the
declared `implies_transitive` list and the resolver fields, so updating a
record in ways that preserve those leaves every membership verdict
untouched. -/

theorem bool_eq_of_iff {a b : Bool} (h : a = true ↔ b = true) : a = b := by
  cases a <;> cases b <;> simp_all

theorem update_keys (store : Store) (f : String) (nd : FlagRecord) :
    (update_store store f nd).map Prod.fst = store.map Prod.fst := by
  unfold update_store
  rw [List.map_map]
  apply List.map_congr_left
  intro p hp
  by_cases hpf : p.1 = f
  · simp [hpf]
  · simp [hpf]

theorem findFlag_update_self {store : Store} {f : String} (nd : FlagRecord)
    (hk : f ∈ store.map Prod.fst) :
    findFlag (update_store store f nd) f = some nd := by
  induction store with
  | nil => simp at hk
  | cons p rest ih =>
    obtain ⟨k, e⟩ := p
    unfold update_store
    rw [List.map_cons]
    by_cases hkf : k = f
    · rw [if_pos hkf, findFlag, if_pos hkf]
    · rw [if_neg hkf, findFlag, if_neg hkf]
      rw [List.map_cons] at hk
      rcases List.mem_cons.mp hk with h | h
      · exact absurd h.symm hkf
      · exact ih h

theorem findFlag_update_other {store : Store} {f s : String}
    (nd : FlagRecord) (hs : s ≠ f) :
    findFlag (update_store store f nd) s = findFlag store s := by
  induction store with
  | nil => rfl
  | cons p rest ih =>
    obtain ⟨k, e⟩ := p
    unfold update_store
    rw [List.map_cons]
    by_cases hkf : k = f
    · rw [if_pos hkf, findFlag]
      have hks : k ≠ s := by rw [hkf]; exact fun h => hs h.symm
      rw [if_neg hks, findFlag, if_neg hks]
      exact ih
    · rw [if_neg hkf, findFlag, findFlag]
      by_cases hks : k = s
      · rw [if_pos hks, if_pos hks]
      · rw [if_neg hks, if_neg hks]
        exact ih

theorem is_type0_findFlag_iff {store : Store} {n : String}
    (hnd : (store.map Prod.fst).Nodup) :
    is_type0 store n = true ↔
      ∃ e, findFlag store n = some e ∧ e.some_default = true ∧
        e.implies = [] := by
  rw [is_type0_true_iff]
  constructor
  · rintro ⟨e, he, h⟩
    exact ⟨e, findFlag_eq_some_of_mem hnd he, h⟩
  · rintro ⟨e, he, h⟩
    exact ⟨e, findFlag_mem he, h⟩

theorem is_type0_update {store : Store} {f : String} {d nd : FlagRecord}
    (hnd : (store.map Prod.fst).Nodup) (hmem : (f, d) ∈ store)
    (hsd : nd.some_default = d.some_default)
    (hie : nd.implies.isEmpty = d.implies.isEmpty) (n : String) :
    is_type0 (update_store store f nd) n = is_type0 store n := by
  have hnd2 : ((update_store store f nd).map Prod.fst).Nodup := by
    rw [update_keys]; exact hnd
  have hne : nd.implies = [] ↔ d.implies = [] := by
    rw [← List.isEmpty_iff, ← List.isEmpty_iff, hie]
  apply bool_eq_of_iff
  rw [is_type0_findFlag_iff hnd2, is_type0_findFlag_iff hnd]
  by_cases hn : n = f
  · subst hn
    rw [findFlag_update_self nd (List.mem_map.mpr ⟨(n, d), hmem, rfl⟩),
      findFlag_eq_some_of_mem hnd hmem]
    constructor
    · rintro ⟨e, he, h1, h2⟩
      rw [Option.some.injEq] at he
      subst he
      exact ⟨d, rfl, hsd ▸ h1, hne.mp h2⟩
    · rintro ⟨e, he, h1, h2⟩
      rw [Option.some.injEq] at he
      subst he
      exact ⟨nd, rfl, hsd.symm ▸ h1, hne.mpr h2⟩
  · rw [findFlag_update_other nd hn]

theorem trans_status_update {store : Store} {f : String} {d nd : FlagRecord}
    (hnd : (store.map Prod.fst).Nodup) (hmem : (f, d) ∈ store)
    (hsd : nd.some_default = d.some_default)
    (hie : nd.implies.isEmpty = d.implies.isEmpty)
    (hid : nd.is_default = d.is_default) (hier : nd.is_error = d.is_error)
    (hhh : nd.has_no_effect = d.has_no_effect) (s : String) :
    trans_status (update_store store f nd) s = trans_status store s := by
  have ht0 := is_type0_update hnd hmem hsd hie s
  by_cases hs : s = f
  · subst hs
    unfold trans_status
    rw [findFlag_update_self nd (List.mem_map.mpr ⟨(s, d), hmem, rfl⟩),
      findFlag_eq_some_of_mem hnd hmem]
    simp only [hid, hier, hhh, ht0]
  · unfold trans_status
    rw [findFlag_update_other nd hs, ht0]

theorem transitive_statuses_update {store : Store} {f : String}
    {d nd : FlagRecord} (hnd : (store.map Prod.fst).Nodup)
    (hmem : (f, d) ∈ store) (hsd : nd.some_default = d.some_default)
    (hie : nd.implies.isEmpty = d.implies.isEmpty)
    (hid : nd.is_default = d.is_default) (hier : nd.is_error = d.is_error)
    (hhh : nd.has_no_effect = d.has_no_effect) (e : FlagRecord) :
    transitive_statuses (update_store store f nd) e =
      transitive_statuses store e := by
  unfold transitive_statuses
  apply List.map_congr_left
  intro s _
  exact trans_status_update hnd hmem hsd hie hid hier hhh s

theorem type1_cond_update {store : Store} {f : String} {d nd : FlagRecord}
    (hnd : (store.map Prod.fst).Nodup) (hmem : (f, d) ∈ store)
    (hsd : nd.some_default = d.some_default)
    (hie : nd.implies.isEmpty = d.implies.isEmpty)
    (hid : nd.is_default = d.is_default) (hier : nd.is_error = d.is_error)
    (hhh : nd.has_no_effect = d.has_no_effect) (e : FlagRecord) :
    type1_cond (update_store store f nd) e = type1_cond store e := by
  unfold type1_cond all_transitive_non_default
  rw [transitive_statuses_update hnd hmem hsd hie hid hier hhh]

theorem type2_cond_update {store : Store} {f : String} {d nd : FlagRecord}
    (hnd : (store.map Prod.fst).Nodup) (hmem : (f, d) ∈ store)
    (hsd : nd.some_default = d.some_default)
    (hie : nd.implies.isEmpty = d.implies.isEmpty)
    (hid : nd.is_default = d.is_default) (hier : nd.is_error = d.is_error)
    (hhh : nd.has_no_effect = d.has_no_effect) (e : FlagRecord) :
    type2_cond (update_store store f nd) e = type2_cond store e := by
  unfold type2_cond truly_enabled
  rw [transitive_statuses_update hnd hmem hsd hie hid hier hhh]

theorem type3_cond_update {store : Store} {f : String} {d nd : FlagRecord}
    (hnd : (store.map Prod.fst).Nodup) (hmem : (f, d) ∈ store)
    (hsd : nd.some_default = d.some_default)
    (hie : nd.implies.isEmpty = d.implies.isEmpty)
    (hid : nd.is_default = d.is_default) (hier : nd.is_error = d.is_error)
    (hhh : nd.has_no_effect = d.has_no_effect) (e : FlagRecord) :
    type3_cond (update_store store f nd) e = type3_cond store e := by
  unfold type3_cond all_transitive_default
  rw [transitive_statuses_update hnd hmem hsd hie hid hier hhh]

theorem emits_type0_findFlag (store : Store) (g : String) :
    emits_type0 store g ↔
      (g ∈ store.map Prod.fst ∧ is_type0 store g = true) := by
  unfold emits_type0 check_inconsistencies
  rw [mem_check_loop_type0]
  constructor
  · rintro ⟨e, he, h⟩
    exact ⟨List.mem_map.mpr ⟨(g, e), he, rfl⟩, h⟩
  · rintro ⟨hk, h⟩
    obtain ⟨⟨n, e⟩, hmem, hn⟩ := List.mem_map.mp hk
    simp only at hn
    subst hn
    exact ⟨e, hmem, h⟩

theorem emits_type1_findFlag (store : Store) (g : String)
    (hnd : (store.map Prod.fst).Nodup) :
    emits_type1 store g ↔
      ∃ e, findFlag store g = some e ∧ is_type0 store g = false ∧
        e.implies ≠ [] ∧ type1_cond store e = true := by
  unfold emits_type1 check_inconsistencies
  rw [mem_check_loop_type1]
  constructor
  · rintro ⟨e, he, h⟩
    exact ⟨e, findFlag_eq_some_of_mem hnd he, h⟩
  · rintro ⟨e, he, h⟩
    exact ⟨e, findFlag_mem he, h⟩

theorem emits_type2_findFlag (store : Store) (g : String)
    (hnd : (store.map Prod.fst).Nodup) :
    emits_type2 store g ↔
      ∃ e, findFlag store g = some e ∧ is_type0 store g = false ∧
        e.implies ≠ [] ∧ type2_cond store e = true := by
  unfold emits_type2 check_inconsistencies
  rw [mem_check_loop_type2]
  constructor
  · rintro ⟨e, he, h⟩
    exact ⟨e, findFlag_eq_some_of_mem hnd he, h⟩
  · rintro ⟨e, he, h⟩
    exact ⟨e, findFlag_mem he, h⟩

theorem emits_type3_findFlag (store : Store) (g : String)
    (hnd : (store.map Prod.fst).Nodup) :
    emits_type3 store g ↔
      ∃ e, findFlag store g = some e ∧ is_type0 store g = false ∧
        e.implies ≠ [] ∧ type3_cond store e = true := by
  unfold emits_type3 check_inconsistencies
  rw [mem_check_loop_type3]
  constructor
  · rintro ⟨e, he, h⟩
    exact ⟨e, findFlag_eq_some_of_mem hnd he, h⟩
  · rintro ⟨e, he, h⟩
    exact ⟨e, findFlag_mem he, h⟩

theorem ne_nil_iff_of_isEmpty_eq {α : Type} {l1 l2 : List α}
    (h : l1.isEmpty = l2.isEmpty) : l1 ≠ [] ↔ l2 ≠ [] := by
  rw [Ne, Ne, ← List.isEmpty_iff, ← List.isEmpty_iff, h]

theorem emits_update_iff (store : Store) (f g : String) (d nd : FlagRecord)
    (hnd : (store.map Prod.fst).Nodup) (hmem : (f, d) ∈ store)
    (hsd : nd.some_default = d.some_default)
    (hie : nd.implies.isEmpty = d.implies.isEmpty)
    (hid : nd.is_default = d.is_default) (hier : nd.is_error = d.is_error)
    (hhh : nd.has_no_effect = d.has_no_effect)
    (hc1 : type1_cond store nd = type1_cond store d)
    (hc2 : type2_cond store nd = type2_cond store d)
    (hc3 : type3_cond store nd = type3_cond store d) :
    (emits_type1 (update_store store f nd) g ↔ emits_type1 store g) ∧
    (emits_type2 (update_store store f nd) g ↔ emits_type2 store g) ∧
    (emits_type3 (update_store store f nd) g ↔ emits_type3 store g) := by
  have hnd2 : ((update_store store f nd).map Prod.fst).Nodup := by
    rw [update_keys]; exact hnd
  have ht0 := is_type0_update hnd hmem hsd hie
  have hu1 := type1_cond_update hnd hmem hsd hie hid hier hhh
  have hu2 := type2_cond_update hnd hmem hsd hie hid hier hhh
  have hu3 := type3_cond_update hnd hmem hsd hie hid hier hhh
  have hne := ne_nil_iff_of_isEmpty_eq hie
  by_cases hg : g = f
  · subst hg
    have hself := findFlag_update_self nd
      (List.mem_map.mpr ⟨(g, d), hmem, rfl⟩)
    have horig := findFlag_eq_some_of_mem hnd hmem
    refine ⟨?_, ?_, ?_⟩
    · rw [emits_type1_findFlag _ _ hnd2, emits_type1_findFlag _ _ hnd,
        hself, horig]
      constructor
      · rintro ⟨e, he, h2, h3, h4⟩
        rw [Option.some.injEq] at he
        subst he
        exact ⟨d, rfl, ht0 g ▸ h2, hne.mp h3, hc1 ▸ hu1 nd ▸ h4⟩
      · rintro ⟨e, he, h2, h3, h4⟩
        rw [Option.some.injEq] at he
        subst he
        exact ⟨nd, rfl, (ht0 g).symm ▸ h2, hne.mpr h3,
          (hu1 nd).symm ▸ hc1.symm ▸ h4⟩
    · rw [emits_type2_findFlag _ _ hnd2, emits_type2_findFlag _ _ hnd,
        hself, horig]
      constructor
      · rintro ⟨e, he, h2, h3, h4⟩
        rw [Option.some.injEq] at he
        subst he
        exact ⟨d, rfl, ht0 g ▸ h2, hne.mp h3, hc2 ▸ hu2 nd ▸ h4⟩
      · rintro ⟨e, he, h2, h3, h4⟩
        rw [Option.some.injEq] at he
        subst he
        exact ⟨nd, rfl, (ht0 g).symm ▸ h2, hne.mpr h3,
          (hu2 nd).symm ▸ hc2.symm ▸ h4⟩
    · rw [emits_type3_findFlag _ _ hnd2, emits_type3_findFlag _ _ hnd,
        hself, horig]
      constructor
      · rintro ⟨e, he, h2, h3, h4⟩
        rw [Option.some.injEq] at he
        subst he
        exact ⟨d, rfl, ht0 g ▸ h2, hne.mp h3, hc3 ▸ hu3 nd ▸ h4⟩
      · rintro ⟨e, he, h2, h3, h4⟩
        rw [Option.some.injEq] at he
        subst he
        exact ⟨nd, rfl, (ht0 g).symm ▸ h2, hne.mpr h3,
          (hu3 nd).symm ▸ hc3.symm ▸ h4⟩
  · have hfind := @findFlag_update_other store f g nd hg
    refine ⟨?_, ?_, ?_⟩
    · rw [emits_type1_findFlag _ _ hnd2, emits_type1_findFlag _ _ hnd, hfind]
      constructor
      · rintro ⟨e, he, h2, h3, h4⟩
        exact ⟨e, he, ht0 g ▸ h2, h3, hu1 e ▸ h4⟩
      · rintro ⟨e, he, h2, h3, h4⟩
        exact ⟨e, he, (ht0 g).symm ▸ h2, h3, (hu1 e).symm ▸ h4⟩
    · rw [emits_type2_findFlag _ _ hnd2, emits_type2_findFlag _ _ hnd, hfind]
      constructor
      · rintro ⟨e, he, h2, h3, h4⟩
        exact ⟨e, he, ht0 g ▸ h2, h3, hu2 e ▸ h4⟩
      · rintro ⟨e, he, h2, h3, h4⟩
        exact ⟨e, he, (ht0 g).symm ▸ h2, h3, (hu2 e).symm ▸ h4⟩
    · rw [emits_type3_findFlag _ _ hnd2, emits_type3_findFlag _ _ hnd, hfind]
      constructor
      · rintro ⟨e, he, h2, h3, h4⟩
        exact ⟨e, he, ht0 g ▸ h2, h3, hu3 e ▸ h4⟩
      · rintro ⟨e, he, h2, h3, h4⟩
        exact ⟨e, he, (ht0 g).symm ▸ h2, h3, (hu3 e).symm ▸ h4⟩

/-! Appending a missing name to the declared closure changes no rule guard:
a missing reference counts neither as enabled nor as not enabled. -/

theorem type1_cond_append_missing (store : Store) (d : FlagRecord)
    (m : String) (hm : findFlag store m = none) :
    type1_cond store
      { d with implies_transitive := d.implies_transitive ++ [m] } =
      type1_cond store d := by
  apply bool_eq_of_iff
  rw [type1_cond_iff, type1_cond_iff]
  constructor
  · rintro ⟨h1, h2⟩
    exact ⟨h1, fun s hs => h2 s (List.mem_append.mpr (Or.inl hs))⟩
  · rintro ⟨h1, h2⟩
    refine ⟨h1, fun s hs => ?_⟩
    rcases List.mem_append.mp hs with h | h
    · exact h2 s h
    · have hsm : s = m := by simpa using h
      subst hsm
      intro hed
      rw [effective_default, hm] at hed
      simp at hed

theorem type2_cond_append_missing (store : Store) (d : FlagRecord)
    (m : String) (hm : findFlag store m = none) :
    type2_cond store
      { d with implies_transitive := d.implies_transitive ++ [m] } =
      type2_cond store d := by
  apply bool_eq_of_iff
  rw [type2_cond_iff, type2_cond_iff]
  constructor
  · rintro ⟨h1, h2, h3, s, hs, e, he, hrest⟩
    rcases List.mem_append.mp hs with h | h
    · exact ⟨h1, h2, h3, s, h, e, he, hrest⟩
    · have hsm : s = m := by simpa using h
      subst hsm
      rw [hm] at he
      exact absurd he (by simp)
  · rintro ⟨h1, h2, h3, s, hs, e, he, hrest⟩
    exact ⟨h1, h2, h3, s, List.mem_append.mpr (Or.inl hs), e, he, hrest⟩

theorem type3_cond_append_missing (store : Store) (d : FlagRecord)
    (m : String) (hm : findFlag store m = none) :
    type3_cond store
      { d with implies_transitive := d.implies_transitive ++ [m] } =
      type3_cond store d := by
  apply bool_eq_of_iff
  rw [type3_cond_iff, type3_cond_iff]
  constructor
  · rintro ⟨h1, s, hs, hed⟩
    rcases List.mem_append.mp hs with h | h
    · exact ⟨h1, s, h, hed⟩
    · have hsm : s = m := by simpa using h
      subst hsm
      rw [effective_default, hm] at hed
      exact absurd hed (by simp)
  · rintro ⟨h1, s, hs, hed⟩
    exact ⟨h1, s, List.mem_append.mpr (Or.inl hs), hed⟩

/-! Termination and soundness of the closure traversal. -/

theorem aux_zero (store : Store) (n : String) (v : List String) :
    get_all_implies_aux store 0 n v = ([], v) := rfl

theorem aux_succ (store : Store) (fuel : Nat) (n : String)
    (v : List String) :
    get_all_implies_aux store (fuel + 1) n v =
      if n ∈ v then ([], v)
      else
        match findFlag store n with
        | none => ([], n :: v)
        | some d =>
          implies_fold (fun s w => get_all_implies_aux store fuel s w)
            d.implies (n :: v) := rfl

theorem implies_fold_visited_sub
    (g : String → List String → List String × List String)
    (hg : ∀ s v, v ⊆ (g s v).2) :
    ∀ l v, v ⊆ (implies_fold g l v).2 := by
  intro l
  induction l with
  | nil => intro v; exact List.Subset.refl v
  | cons i rest ih =>
    intro v
    exact List.Subset.trans (hg i v) (ih (g i v).2)

theorem aux_visited_sub (store : Store) :
    ∀ fuel n v, v ⊆ (get_all_implies_aux store fuel n v).2 := by
  intro fuel
  induction fuel with
  | zero => intro n v; exact List.Subset.refl v
  | succ fuel ih =>
    intro n v
    rw [aux_succ]
    by_cases hmem : n ∈ v
    · rw [if_pos hmem]
      exact List.Subset.refl v
    · rw [if_neg hmem]
      rcases hf : findFlag store n with - | d
      · simp only [hf]
        exact List.subset_cons_self n v
      · simp only [hf]
        exact List.Subset.trans (List.subset_cons_self n v)
          (implies_fold_visited_sub _ (fun s w => ih s w) d.implies (n :: v))

theorem filter_length_mono {α : Type} (l : List α) (p q : α → Bool)
    (h : ∀ a, p a = true → q a = true) :
    (l.filter p).length ≤ (l.filter q).length := by
  induction l with
  | nil => simp
  | cons a t ih =>
    rw [List.filter_cons, List.filter_cons]
    by_cases hp : p a = true
    · rw [if_pos hp, if_pos (h a hp)]
      simpa using ih
    · rw [if_neg hp]
      by_cases hq : q a = true
      · rw [if_pos hq]
        exact Nat.le_succ_of_le ih
      · rw [if_neg hq]
        exact ih

theorem unvisited_anti (store : Store) {v w : List String} (h : v ⊆ w) :
    unvisited_count store w ≤ unvisited_count store v := by
  unfold unvisited_count
  apply filter_length_mono
  intro a ha
  rw [decide_eq_true_iff] at ha ⊢
  exact fun hv => ha (h hv)

theorem unvisited_pos {store : Store} {n : String} {v : List String}
    (hn : n ∈ store.map Prod.fst) (hv : n ∉ v) :
    0 < unvisited_count store v := by
  unfold unvisited_count
  apply List.length_pos.mpr
  intro hnil
  have : n ∈ (store.map Prod.fst).filter (fun x => decide (x ∉ v)) :=
    List.mem_filter.mpr ⟨hn, decide_eq_true hv⟩
  rw [hnil] at this
  simp at this

theorem filter_length_strict {l : List String} {n : String}
    {v : List String} (hn : n ∈ l) (hv : n ∉ v) :
    (l.filter (fun x => decide (x ∉ n :: v))).length <
      (l.filter (fun x => decide (x ∉ v))).length := by
  induction l with
  | nil => simp at hn
  | cons a t ih =>
    rw [List.filter_cons, List.filter_cons]
    rcases List.mem_cons.mp hn with rfl | ha
    · have h1 : (decide (n ∉ n :: v)) = false := by simp
      have h2 : (decide (n ∉ v)) = true := decide_eq_true hv
      rw [h1, h2]
      simp only [Bool.false_eq_true, if_false, if_true, List.length_cons]
      apply Nat.lt_succ_of_le
      apply filter_length_mono
      intro x hx
      rw [decide_eq_true_iff] at hx ⊢
      exact fun hxv => hx (List.mem_cons_of_mem _ hxv)
    · by_cases hav : a ∈ v
      · have h1 : (decide (a ∉ n :: v)) = false := by
          simp [List.mem_cons_of_mem _ hav]
        have h2 : (decide (a ∉ v)) = false := by simp [hav]
        rw [h1, h2]
        simp only [Bool.false_eq_true, if_false]
        exact ih ha
      · by_cases han : a = n
        · subst han
          have h1 : (decide (a ∉ a :: v)) = false := by simp
          have h2 : (decide (a ∉ v)) = true := decide_eq_true hav
          rw [h1, h2]
          simp only [Bool.false_eq_true, if_false, if_true, List.length_cons]
          apply Nat.lt_succ_of_le
          apply filter_length_mono
          intro x hx
          rw [decide_eq_true_iff] at hx ⊢
          exact fun hxv => hx (List.mem_cons_of_mem _ hxv)
        · have h1 : (decide (a ∉ n :: v)) = true := by
            apply decide_eq_true
            intro hmem
            rcases List.mem_cons.mp hmem with h | h
            · exact han h
            · exact hav h
          have h2 : (decide (a ∉ v)) = true := decide_eq_true hav
          rw [h1, h2]
          simp only [if_true, List.length_cons]
          exact Nat.succ_lt_succ (ih ha)

theorem unvisited_strict {store : Store} {n : String} {v : List String}
    (hn : n ∈ store.map Prod.fst) (hv : n ∉ v) :
    unvisited_count store (n :: v) < unvisited_count store v :=
  filter_length_strict hn hv

theorem implies_fold_congr
    (g1 g2 : String → List String → List String × List String)
    (P : List String → Prop) (hg : ∀ s v, P v → g1 s v = g2 s v)
    (hp : ∀ s v, P v → P ((g1 s v).2)) :
    ∀ l v, P v → implies_fold g1 l v = implies_fold g2 l v := by
  intro l
  induction l with
  | nil => intro v _; rfl
  | cons i rest ih =>
    intro v hv
    have he := hg i v hv
    have hrest := ih (g1 i v).2 (hp i v hv)
    show (i :: ((g1 i v).1 ++ (implies_fold g1 rest (g1 i v).2).1),
        (implies_fold g1 rest (g1 i v).2).2) =
      (i :: ((g2 i v).1 ++ (implies_fold g2 rest (g2 i v).2).1),
        (implies_fold g2 rest (g2 i v).2).2)
    rw [hrest, he]

theorem aux_stable (store : Store) :
    ∀ k fuel1 fuel2 n v, unvisited_count store v ≤ k → k < fuel1 →
      k < fuel2 →
      get_all_implies_aux store fuel1 n v =
        get_all_implies_aux store fuel2 n v := by
  intro k
  induction k with
  | zero =>
    intro fuel1 fuel2 n v hK h1 h2
    obtain ⟨a, rfl⟩ : ∃ a, fuel1 = a + 1 := ⟨fuel1 - 1, by omega⟩
    obtain ⟨b, rfl⟩ : ∃ b, fuel2 = b + 1 := ⟨fuel2 - 1, by omega⟩
    rw [aux_succ, aux_succ]
    by_cases hmem : n ∈ v
    · rw [if_pos hmem, if_pos hmem]
    · rw [if_neg hmem, if_neg hmem]
      rcases hf : findFlag store n with - | d
      · simp only [hf]
      · exact absurd (unvisited_pos (findFlag_key_mem hf) hmem) (by omega)
  | succ k ih =>
    intro fuel1 fuel2 n v hK h1 h2
    obtain ⟨a, rfl⟩ : ∃ a, fuel1 = a + 1 := ⟨fuel1 - 1, by omega⟩
    obtain ⟨b, rfl⟩ : ∃ b, fuel2 = b + 1 := ⟨fuel2 - 1, by omega⟩
    rw [aux_succ, aux_succ]
    by_cases hmem : n ∈ v
    · rw [if_pos hmem, if_pos hmem]
    · rw [if_neg hmem, if_neg hmem]
      rcases hf : findFlag store n with - | d
      · simp only [hf]
      · simp only [hf]
        apply implies_fold_congr _ _ (fun w => unvisited_count store w ≤ k)
        · intro s w hw
          exact ih a b s w hw (by omega) (by omega)
        · intro s w hw
          exact Nat.le_trans
            (unvisited_anti store (aux_visited_sub store a s w)) hw
        · have := unvisited_strict (findFlag_key_mem hf) hmem
          omega

theorem unvisited_nil_le (store : Store) :
    unvisited_count store [] ≤ store.length := by
  unfold unvisited_count
  calc ((store.map Prod.fst).filter (fun n => decide (n ∉ ([] : List String)))).length
      ≤ (store.map Prod.fst).length := List.length_filter_le _ _
    _ = store.length := List.length_map _ _

theorem implies_fold_sound (store : Store)
    (g : String → List String → List String × List String)
    (hg : ∀ s v x, x ∈ (g s v).1 → Reaches store s x) :
    ∀ l v x, x ∈ (implies_fold g l v).1 →
      ∃ s ∈ l, x = s ∨ Reaches store s x := by
  intro l
  induction l with
  | nil => intro v x hx; simp [implies_fold] at hx
  | cons i rest ih =>
    intro v x hx
    rcases List.mem_cons.mp hx with rfl | hx2
    · exact ⟨x, List.mem_cons_self _ _, Or.inl rfl⟩
    · rcases List.mem_append.mp hx2 with h | h
      · exact ⟨i, List.mem_cons_self _ _, Or.inr (hg i v x h)⟩
      · obtain ⟨s, hs, hcase⟩ := ih (g i v).2 x h
        exact ⟨s, List.mem_cons_of_mem _ hs, hcase⟩

theorem aux_sound (store : Store) :
    ∀ fuel n v x, x ∈ (get_all_implies_aux store fuel n v).1 →
      Reaches store n x := by
  intro fuel
  induction fuel with
  | zero => intro n v x hx; simp [aux_zero] at hx
  | succ fuel ih =>
    intro n v x hx
    rw [aux_succ] at hx
    by_cases hmem : n ∈ v
    · rw [if_pos hmem] at hx; simp at hx
    · rw [if_neg hmem] at hx
      rcases hf : findFlag store n with - | d
      · simp only [hf] at hx
        simp at hx
      · simp only [hf] at hx
        obtain ⟨s, hs, hcase⟩ :=
          implies_fold_sound store _ (fun s w x h => ih s w x h)
            d.implies (n :: v) x hx
        rcases hcase with rfl | hr
        · exact Reaches.direct hf hs
        · exact Reaches.step hf hs hr

/-! Claim theorems. -/

/-- Claim C1: for every flag in the store with a non-empty implies list
(hence not itself Type 0), the engine emits a Type 1 finding iff the flag
has `some_default = true` and no member of its declared transitive closure
resolves to enabled under the full composite resolver (`is_default`,
`is_error`, `has_no_effect` or Type-0 membership each suffice); in
particular a flag whose closure holds a child with `is_default = true`
receives no Type 1 finding. -/
theorem c1_type1_characterization (store : Store) (f : String)
    (d : FlagRecord) (hnd : (store.map Prod.fst).Nodup)
    (hmem : (f, d) ∈ store) (himp : d.implies ≠ []) :
    emits_type1 store f ↔
      (d.some_default = true ∧
        ∀ s ∈ d.implies_transitive,
          effective_default store s ≠ some true) := by
  rw [emits_type1_findFlag store f hnd, ← type1_cond_iff]
  constructor
  · rintro ⟨e, he, -, -, hc⟩
    have hde : e = d := by
      have h2 := findFlag_eq_some_of_mem hnd hmem
      rw [he, Option.some.injEq] at h2
      exact h2
    exact hde ▸ hc
  · intro hc
    exact ⟨d, findFlag_eq_some_of_mem hnd hmem,
      is_type0_false_of_implies_ne hnd hmem himp, himp, hc⟩

/-- Witness for C1: in `w1_store` the parent claims `some_default` and its
single closure member `c` has `is_default = true`, so no Type 1 finding is
emitted for it. -/
theorem c1_witness : ¬ emits_type1 w1_store "f" := by
  intro h
  have h2 := (c1_type1_characterization w1_store "f" w1_f (by decide)
    (by decide) (by decide)).mp h
  exact h2.2 "c" (by decide) (by decide)

/-- Claim C2 counterexample: in `cex2_store` the parent has
`some_default = false`, `is_default = false`, `is_error = false`, and its
closure member `c` is enabled when only the `has_no_effect` and Type-0
causes are removed (`c.is_default = true`), so the claim as stated demands
a Type 2 finding; the engine emits none, because `c` also has
`has_no_effect = true` and the `truly_enabled` filter drops the row
entirely rather than merely ignoring the inert cause. -/
theorem c2_counterexample :
    findFlag cex2_store "f" = some w2_f ∧ w2_f.some_default = false ∧
    w2_f.is_default = false ∧ w2_f.is_error = false ∧
    "c" ∈ w2_f.implies_transitive ∧
    findFlag cex2_store "c" = some cex2_c ∧ cex2_c.is_default = true ∧
    ¬ emits_type2 cex2_store "f" := by
  refine ⟨rfl, rfl, rfl, rfl, by decide, rfl, rfl, ?_⟩
  unfold emits_type2
  decide

/-- Claim C2 (amended): the engine emits a Type 2 finding iff the flag has
`some_default = false`, neither `is_default` nor `is_error`, and some
member of its declared closure is present, composite-enabled, and is
itself neither `has_no_effect` nor a Type-0 flag (not merely enabled with
those causes ignored). -/
theorem c2_type2_characterization (store : Store) (f : String)
    (d : FlagRecord) (hnd : (store.map Prod.fst).Nodup)
    (hmem : (f, d) ∈ store) (himp : d.implies ≠ []) :
    emits_type2 store f ↔
      (d.some_default = false ∧ d.is_default = false ∧ d.is_error = false ∧
        ∃ s ∈ d.implies_transitive, ∃ e, findFlag store s = some e ∧
          effective_default store s = some true ∧ e.has_no_effect = false ∧
          is_type0 store s = false) := by
  rw [emits_type2_findFlag store f hnd, ← type2_cond_iff]
  constructor
  · rintro ⟨e, he, -, -, hc⟩
    have hde : e = d := by
      have h2 := findFlag_eq_some_of_mem hnd hmem
      rw [he, Option.some.injEq] at h2
      exact h2
    exact hde ▸ hc
  · intro hc
    exact ⟨d, findFlag_eq_some_of_mem hnd hmem,
      is_type0_false_of_implies_ne hnd hmem himp, himp, hc⟩

/-- Witness for C2 (amended): in `w2_store` the closure member `c` has
`is_default = true`, `has_no_effect = false` and is not Type 0, so the
Type 2 finding is emitted. -/
theorem c2_witness : emits_type2 w2_store "f" := by
  apply (c2_type2_characterization w2_store "f" w2_f (by decide) (by decide)
    (by decide)).mpr
  exact ⟨rfl, rfl, rfl, "c", by decide, { is_default := true }, by decide,
    by decide, rfl, by decide⟩

/-- Claim C3: for every flag in the store with a non-empty implies list,
the engine emits a Type 3 finding iff the parent's effective default is
true in the sense used by the rule (`is_default` or `is_error`) and some
present member of its declared closure resolves to not enabled, inert and
Type-0 members counting as enabled; hence an `is_error` flag whose only
closure member has `has_no_effect = true` never gets a Type 3 finding. -/
theorem c3_type3_characterization (store : Store) (f : String)
    (d : FlagRecord) (hnd : (store.map Prod.fst).Nodup)
    (hmem : (f, d) ∈ store) (himp : d.implies ≠ []) :
    emits_type3 store f ↔
      ((d.is_default = true ∨ d.is_error = true) ∧
        ∃ s ∈ d.implies_transitive,
          effective_default store s = some false) := by
  rw [emits_type3_findFlag store f hnd, ← type3_cond_iff]
  constructor
  · rintro ⟨e, he, -, -, hc⟩
    have hde : e = d := by
      have h2 := findFlag_eq_some_of_mem hnd hmem
      rw [he, Option.some.injEq] at h2
      exact h2
    exact hde ▸ hc
  · intro hc
    exact ⟨d, findFlag_eq_some_of_mem hnd hmem,
      is_type0_false_of_implies_ne hnd hmem himp, himp, hc⟩

/-- Witness for C3: in `w3_store` the parent is error-by-default and its
only closure member is inert, so no Type 3 finding is emitted. -/
theorem c3_witness : ¬ emits_type3 w3_store "f" := by
  intro h
  obtain ⟨-, s, hs, hed⟩ := (c3_type3_characterization w3_store "f" w3_f
    (by decide) (by decide) (by decide)).mp h
  have hs2 : s = "c" := by simpa [w3_f] using hs
  subst hs2
  exact absurd hed (by decide)

/-- Claim C4: a flag is classified Type 0 iff it has `some_default = true`
and an empty implies list; such a flag receives a Type 0 finding and no
Type 1, 2 or 3 finding for itself, while the resolver still reports it as
an enabled closure member for other flags' checks. -/
theorem c4_type0_classification (store : Store) (f : String)
    (d : FlagRecord) (hnd : (store.map Prod.fst).Nodup)
    (hmem : (f, d) ∈ store) :
    (emits_type0 store f ↔ (d.some_default = true ∧ d.implies = [])) ∧
    (d.some_default = true → d.implies = [] →
      ¬ emits_type1 store f ∧ ¬ emits_type2 store f ∧
      ¬ emits_type3 store f ∧
      (trans_status store f).is_default = some true) := by
  constructor
  · rw [emits_type0_findFlag store f]
    constructor
    · rintro ⟨-, h0⟩
      obtain ⟨e, he, h1, h2⟩ := is_type0_true_iff.mp h0
      obtain rfl := mem_unique_of_nodup hnd he hmem
      exact ⟨h1, h2⟩
    · rintro ⟨h1, h2⟩
      exact ⟨List.mem_map.mpr ⟨(f, d), hmem, rfl⟩,
        is_type0_true_iff.mpr ⟨d, hmem, h1, h2⟩⟩
  · intro h1 h2
    have h0 : is_type0 store f = true :=
      is_type0_true_iff.mpr ⟨d, hmem, h1, h2⟩
    refine ⟨?_, ?_, ?_, ?_⟩
    · intro h
      obtain ⟨e, -, hT, -, -⟩ := (emits_type1_findFlag store f hnd).mp h
      rw [hT] at h0
      exact Bool.noConfusion h0
    · intro h
      obtain ⟨e, -, hT, -, -⟩ := (emits_type2_findFlag store f hnd).mp h
      rw [hT] at h0
      exact Bool.noConfusion h0
    · intro h
      obtain ⟨e, -, hT, -, -⟩ := (emits_type3_findFlag store f hnd).mp h
      rw [hT] at h0
      exact Bool.noConfusion h0
    · unfold trans_status
      rw [findFlag_eq_some_of_mem hnd hmem]
      simp [h0]

/-- Witness for C4: the childless `some_default` flag of `w4_store` gets a
Type 0 finding, no Type 1 finding, and resolves as enabled. -/
theorem c4_witness :
    emits_type0 w4_store "f" ∧ ¬ emits_type1 w4_store "f" ∧
    (trans_status w4_store "f").is_default = some true := by
  have h := c4_type0_classification w4_store "f" w4_f (by decide) (by decide)
  exact ⟨h.1.mpr ⟨rfl, rfl⟩, (h.2 rfl rfl).1, (h.2 rfl rfl).2.2.2⟩

/-- Claim C5: for every flag present in the store, the composite resolver
reports enabled iff at least one of `is_default`, `is_error`,
`has_no_effect` or Type-0 membership holds, each cause alone sufficing. -/
theorem c5_resolver_composite (store : Store) (f : String)
    (d : FlagRecord) (hnd : (store.map Prod.fst).Nodup)
    (hmem : (f, d) ∈ store) :
    effective_default store f =
      some (d.is_default || d.is_error || d.has_no_effect ||
        is_type0 store f) ∧
    ((trans_status store f).is_default = some true ↔
      (d.is_default = true ∨ d.is_error = true ∨ d.has_no_effect = true ∨
        is_type0 store f = true)) := by
  have hf := findFlag_eq_some_of_mem hnd hmem
  constructor
  · unfold effective_default
    rw [hf]
    rfl
  · rw [trans_status_is_default]
    unfold effective_default
    rw [hf]
    simp only [Option.map_some', Option.some.injEq, Bool.or_eq_true]
    tauto

/-- Witness for C5: `has_no_effect` alone makes the resolver report the
flag of `w5_store` as enabled. -/
theorem c5_witness : (trans_status w5_store "f").is_default = some true :=
  (c5_resolver_composite w5_store "f" w5_f (by decide) (by decide)).2.mpr
    (Or.inr (Or.inr (Or.inl rfl)))

/-- Claim C6 counterexample: in `cyc_store` the flag implies itself, and
the computed transitive closure of that flag contains the flag itself,
refuting the claim that the closure never contains the flag even on a
cycle (the traversal adds each implied name to the result before the
visited guard can stop the expansion). -/
theorem c6_counterexample : "a" ∈ get_all_implies cyc_store "a" := by
  decide

/-- Claim C6 (amended): the computed transitive closure of a flag contains
the flag itself only when the flag lies on an implies cycle reaching back
to itself; absent such a cycle the closure excludes the flag. -/
theorem c6_self_only_on_cycle (store : Store) (f : String)
    (h : f ∈ get_all_implies store f) : Reaches store f f :=
  aux_sound store (store.length + 1) f [] f h

/-- Witness for C6 (amended): applied to the self-loop store it yields the
cycle from the flag back to itself. -/
theorem c6_witness : Reaches cyc_store "a" "a" :=
  c6_self_only_on_cycle cyc_store "a" (by decide)

/-- Claim C7 counterexample: in `cex7_store` the supplied closure of the
parent is empty while the recomputed closure from the implies edges is
nonempty — a divergence — yet the engine's entire output is empty: no
finding, warning or anomaly of any kind is surfaced, so the declared set
is silently trusted. -/
theorem c7_counterexample :
    findFlag cex7_store "f" = some cex7_f ∧
    cex7_f.implies_transitive = [] ∧
    get_all_implies cex7_store "f" = ["b"] ∧
    check_inconsistencies cex7_store = ⟨[], [], [], []⟩ := by
  refine ⟨rfl, rfl, by decide, by decide⟩

/-- Claim C7 (amended): the engine evaluates the rules against the
supplied `implies_transitive` and trusts it without recomputation or
comparison: replacing a flag's direct implies edges by any other non-empty
list — which changes the recomputed closure arbitrarily — changes no
Type 1, Type 2 or Type 3 verdict for any flag, and a divergence between
declared and recomputed closures produces no reported anomaly. -/
theorem c7_declared_closure_only (store : Store) (f : String)
    (d : FlagRecord) (l : List String)
    (hnd : (store.map Prod.fst).Nodup) (hmem : (f, d) ∈ store)
    (himp : d.implies ≠ []) (hl : l ≠ []) (g : String) :
    (emits_type1 (update_store store f { d with implies := l }) g ↔
      emits_type1 store g) ∧
    (emits_type2 (update_store store f { d with implies := l }) g ↔
      emits_type2 store g) ∧
    (emits_type3 (update_store store f { d with implies := l }) g ↔
      emits_type3 store g) := by
  have hie : ({ d with implies := l } : FlagRecord).implies.isEmpty =
      d.implies.isEmpty := by
    have h1 : l.isEmpty = false :=
      Bool.eq_false_iff.mpr (fun h => hl (List.isEmpty_iff.mp h))
    have h2 : d.implies.isEmpty = false :=
      Bool.eq_false_iff.mpr (fun h => himp (List.isEmpty_iff.mp h))
    rw [h2]
    exact h1
  exact emits_update_iff store f g d { d with implies := l } hnd hmem rfl
    hie rfl rfl rfl rfl rfl rfl

/-- Witness for C7 (amended): replacing the edges of the Type 2 parent of
`w2_store` by an edge to an absent flag keeps the Type 2 finding. -/
theorem c7_witness :
    emits_type2 (update_store w2_store "f"
      { w2_f with implies := ["z"] }) "f" := by
  have h := c7_declared_closure_only w2_store "f" w2_f ["z"] (by decide)
    (by decide) (by decide) (by decide) "f"
  apply h.2.1.mpr
  unfold emits_type2
  decide

/-- Claim C8: the closure traversal is bounded — on any store, cyclic or
not, every fuel of at least `store.length + 1` computes the same result,
so the recursion depth never exceeds the store size and the Python
function terminates, returning a finite list. -/
theorem c8_closure_terminates (store : Store) (f : String) (fuel : Nat)
    (h : store.length + 1 ≤ fuel) :
    get_all_implies_aux store fuel f [] =
      get_all_implies_aux store (store.length + 1) f [] :=
  aux_stable store store.length fuel (store.length + 1) f []
    (unvisited_nil_le store) (by omega) (by omega)

/-- Witness for C8: on the self-loop store any surplus fuel computes the
same closure as the sufficient bound. -/
theorem c8_witness :
    get_all_implies_aux cyc_store 5 "a" [] =
      get_all_implies_aux cyc_store (cyc_store.length + 1) "a" [] :=
  c8_closure_terminates cyc_store "a" 5 (by decide)

/-- Claim C9: a reference to a flag absent from the store never aborts
analysis: every occurrence of the missing name in the declared closure and
in the direct children produces an evidence row with `missing = true` and
an unknown (`none`) status, and adding such a name to a flag's declared
closure changes no Type 1, Type 2 or Type 3 verdict for any flag — the
unknown status counts neither as enabled nor as not enabled. -/
theorem c9_missing_reference (store : Store) (f : String) (d : FlagRecord)
    (m : String) (hnd : (store.map Prod.fst).Nodup)
    (hmem : (f, d) ∈ store) (hm : findFlag store m = none) :
    (∀ k : Nat, d.implies_transitive[k]? = some m →
      (transitive_statuses store d)[k]? = some (missing_trans_status m)) ∧
    (∀ k : Nat, d.implies[k]? = some m →
      (direct_statuses store d)[k]? = some (missing_direct_status m)) ∧
    (∀ g, (emits_type1 (update_store store f
        { d with implies_transitive := d.implies_transitive ++ [m] }) g ↔
        emits_type1 store g) ∧
      (emits_type2 (update_store store f
        { d with implies_transitive := d.implies_transitive ++ [m] }) g ↔
        emits_type2 store g) ∧
      (emits_type3 (update_store store f
        { d with implies_transitive := d.implies_transitive ++ [m] }) g ↔
        emits_type3 store g)) := by
  refine ⟨?_, ?_, ?_⟩
  · intro k hk
    unfold transitive_statuses
    rw [List.getElem?_map, hk]
    rw [Option.map_some', trans_status_missing store m hm]
  · intro k hk
    unfold direct_statuses
    rw [List.getElem?_map, hk]
    rw [Option.map_some', direct_status_missing store m hm]
  · intro g
    exact emits_update_iff store f g d
      { d with implies_transitive := d.implies_transitive ++ [m] } hnd hmem
      rfl rfl rfl rfl rfl (type1_cond_append_missing store d m hm)
      (type2_cond_append_missing store d m hm)
      (type3_cond_append_missing store d m hm)

/-- Witness for C9: in `w9_store` the second closure entry is the missing
name and is recorded as a missing row, and appending another missing
occurrence leaves the parent's Type 1 verdict unchanged. -/
theorem c9_witness :
    (transitive_statuses w9_store w9_f)[1]? =
      some (missing_trans_status "m") ∧
    (emits_type1 (update_store w9_store "f"
      { w9_f with implies_transitive := w9_f.implies_transitive ++ ["m"] })
      "f" ↔ emits_type1 w9_store "f") := by
  have h := c9_missing_reference w9_store "f" w9_f "m" (by decide)
    (by decide) (by decide)
  exact ⟨h.1 1 (by decide), (h.2.2 "f").1⟩

/-- Claim C10: the Type 2 and Type 3 collections name disjoint flags: both
rules branch on the same derived parent status, Type 2 requiring it false
and Type 3 requiring it true, so no flag receives both findings. -/
theorem c10_type2_type3_disjoint (store : Store) (g : String)
    (hnd : (store.map Prod.fst).Nodup) (h2 : emits_type2 store g) :
    ¬ emits_type3 store g := by
  intro h3
  obtain ⟨e2, he2, -, -, hc2⟩ := (emits_type2_findFlag store g hnd).mp h2
  obtain ⟨e3, he3, -, -, hc3⟩ := (emits_type3_findFlag store g hnd).mp h3
  rw [he2, Option.some.injEq] at he3
  obtain rfl := he3
  simp only [type2_cond, Bool.and_eq_true, Bool.not_eq_true'] at hc2
  simp only [type3_cond, Bool.and_eq_true] at hc3
  have hfalse := hc2.1.2
  rw [hc3.1] at hfalse
  exact Bool.noConfusion hfalse

/-- Witness for C10: the flag of `w2_store` receives a Type 2 finding and
therefore no Type 3 finding. -/
theorem c10_witness : ¬ emits_type3 w2_store "f" :=
  c10_type2_type3_disjoint w2_store "f" (by decide)
    (by unfold emits_type2; decide)
